import Mathlib

/-!
Verification of the hybrid retrieval engine of the Ragplatform repository.

Shallow embedding conventions:
* Python floats are modelled exactly: values produced only by field
  arithmetic (`risk_score`, `timestamp`, BM25 scores, cache clocks) live in
  `ℚ`; values that flow through `math.sqrt` (cosine similarity, combined
  scores) live in `ℝ`.
* Python `dict` iteration order is insertion order, so the document store is
  an association list `List (String × Document)`; dicts that are only ever
  looked up by key are modelled as functions into `Option`.
* The network-backed embedding provider (`openai` call inside
  `generate_embedding`) is an explicit environment parameter
  `EmbedEnv.embed : String → Option (List ℝ)`; `none` models the `except`
  branch of `generate_embedding`.  The memoising cache wrapped around the
  provider and around `query_hybrid_index` is value-transparent (it stores
  and returns the serialized result of the same computation), so the cache
  lookup at the top of those functions is not repeated in the model; the
  fallback cache store itself (`MockRedisClient`) is modelled separately
  with an explicit clock.
-/

/-! ### Python string primitives used by `vector_store.py` -/

/-- Python `str.lower()` (ASCII case folding, as `Char.toLower`). -/
def pyLower (s : String) : String :=
  String.mk (s.toList.map Char.toLower)

/-- Helper for Python `str.split()`: split a character list on runs of
whitespace, accumulating the (reversed) current word. -/
def splitWsAux : List Char → List Char → List (List Char)
  | [], acc => if acc = [] then [] else [acc.reverse]
  | c :: rest, acc =>
    if c.isWhitespace then
      if acc = [] then splitWsAux rest [] else acc.reverse :: splitWsAux rest []
    else splitWsAux rest (c :: acc)

/-- Python `str.split()` with no separator: split on whitespace runs,
dropping empty pieces. -/
def pyWords (s : String) : List String :=
  (splitWsAux s.toList []).map (fun l => String.mk l)

/-- Python `set(query.lower().split())` as a duplicate-free list
(`vector_store.py` line 162).  Only membership and summation over the set
are ever used, so the list order carries no meaning. -/
def pyTermSet (q : String) : List String :=
  (pyWords (pyLower q)).dedup

/-- Scanner for Python `str.count(sub)` with a non-empty pattern:
count non-overlapping occurrences left to right. -/
def countOccAux (pat : List Char) : List Char → ℕ
  | [] => 0
  | c :: rest =>
    if pat ≠ [] ∧ pat.isPrefixOf (c :: rest) then
      1 + countOccAux pat (rest.drop (pat.length - 1))
    else
      countOccAux pat rest
termination_by l => l.length
decreasing_by
  all_goals simp [List.length_drop]
  omega

/-- Python `s.count(pat)` (used for the BM25 term frequency,
`vector_store.py` line 127). -/
def pyCount (s pat : String) : ℕ :=
  if pat.toList = [] then s.length + 1 else countOccAux pat.toList s.toList

/-! ### Data model -/

/-- A stored document record: the dict fields of the global `documents`
map that `vector_store.py` reads (`title`, `content`, `date`, `source`,
`jurisdiction`, `risk_score`, `keywords`, `timestamp`). -/
structure Document where
  title : String
  content : String
  date : String
  source : String
  jurisdiction : String
  risk_score : ℚ
  keywords : List String
  timestamp : ℚ
deriving DecidableEq

/-- Python `set(document["content"].lower().split())`
(`vector_store.py` lines 115-116). -/
def docTerms (doc : Document) : List String :=
  (pyWords (pyLower doc.content)).dedup

/-! ### Scorer (`vector_similarity`, `bm25_score`) -/

/-- Python `sum(a * b for a, b in zip(vec1, vec2))`
(`vector_store.py` line 98): `zip` truncates to the shorter list. -/
def dotList (v1 v2 : List ℝ) : ℝ :=
  ((v1.zip v2).map (fun p => p.1 * p.2)).sum

/-- Python `sum(a * a for a in vec)`. -/
def sumSq (v : List ℝ) : ℝ :=
  (v.map (fun a => a * a)).sum

/-- Python `math.sqrt(sum(a * a for a in vec))`
(`vector_store.py` lines 99-100). -/
noncomputable def magnitude (v : List ℝ) : ℝ :=
  Real.sqrt (sumSq v)

/-- Model of `vector_similarity(vec1, vec2)` from `vector_store.py` lines 94-105:
cosine similarity, with the divide-by-zero guard returning 0 when either
magnitude is zero. -/
noncomputable def vector_similarity (v1 v2 : List ℝ) : ℝ :=
  let dot_product := dotList v1 v2
  let magnitude1 := magnitude v1
  let magnitude2 := magnitude v2
  if magnitude1 = 0 ∨ magnitude2 = 0 then 0
  else dot_product / (magnitude1 * magnitude2)

/-- Model of `bm25_score(query_terms, document, k1, b, avg_doc_len)` from
`vector_store.py` lines 107-140.  The Python guard `not document` (an empty
dict) has no counterpart here because a `Document` record always has its
fields; the `not query_terms` half of the guard is kept.  The set iteration
`for term in query_terms` is modelled by folding over the duplicate-free
list: every iteration either adds a term contribution or leaves the
accumulator unchanged, so the iteration order of the Python set cannot
affect the sum. -/
def bm25_score (query_terms : List String) (doc : Document)
    (k1 b : ℚ) (avg_doc_len : Option ℚ) : ℚ :=
  if query_terms = [] then 0
  else
    let doc_content := pyLower doc.content
    let doc_terms := docTerms doc
    let avgLen : ℚ := avg_doc_len.getD ((doc_terms.length : ℚ))
    query_terms.foldl
      (fun score term =>
        if term ∈ doc_terms then
          let tf : ℚ := (pyCount doc_content term : ℚ)
          let doc_len : ℚ := (doc_terms.length : ℚ)
          let norm_factor := 1 - b + b * (doc_len / avgLen)
          score + tf * (k1 + 1) / (tf + k1 * norm_factor)
        else score)
      0

/-! ### Stable descending sort

Python `sorted(results, key=..., reverse=True)` is a stable sort: elements
with equal keys keep their original relative order.  `insertDesc` walks past
elements whose key is strictly larger and also past earlier elements with an
equal key, which is exactly the stable behaviour. -/

/-- Stable insertion into a list sorted by `key` descending. -/
def insertDesc {α : Type} {κ : Type} [LinearOrder κ] (key : α → κ) (x : α) :
    List α → List α
  | [] => [x]
  | y :: ys => if key x < key y then y :: insertDesc key x ys else x :: y :: ys

/-- Stable insertion sort by `key` descending: the model of
`sorted(l, key=key, reverse=True)`. -/
def sortDescBy {α : Type} {κ : Type} [LinearOrder κ] (key : α → κ) :
    List α → List α
  | [] => []
  | x :: xs => insertDesc key x (sortDescBy key xs)

/-! ### Document store, embedding provider, hybrid query engine -/

/-- The global maps of `vector_store.py`: the ordered `documents` dict and
the `document_embeddings` dict (only ever read by key). -/
structure DocStore where
  docs : List (String × Document)
  embs : String → Option (List ℝ)

/-- The external embedding provider: `none` models a failing
`client.embeddings.create` call. -/
structure EmbedEnv where
  embed : String → Option (List ℝ)

/-- Model of `generate_embedding(text)` from `vector_store.py` lines 29-54: on
provider failure, return the all-zero vector of dimension 1536. -/
noncomputable def generate_embedding (env : EmbedEnv) (text : String) : List ℝ :=
  (env.embed text).getD (List.replicate 1536 (0 : ℝ))

/-- One entry of the result list built by `query_hybrid_index`
(`vector_store.py` lines 192-201). -/
structure QueryResult where
  id : String
  title : String
  date : String
  source : String
  jurisdiction : String
  score : ℝ
  risk_score : ℚ
  excerpt : String

/-- The jurisdiction filter `if jurisdiction and doc["jurisdiction"] !=
jurisdiction: continue` (`vector_store.py` line 172); an absent or empty
filter string is falsy and filters nothing. -/
def jurisdictionRejects (jur : Option String) (doc : Document) : Bool :=
  match jur with
  | none => false
  | some j => !(j == ("")) && !(doc.jurisdiction == j)

/-- The result record appended for one document
(`vector_store.py` lines 183-201), including the combined score
`0.7 * vector + 0.3 * lexical` and the 200-character excerpt. -/
noncomputable def mkResult (qemb : List ℝ) (qterms : List String)
    (idd : String) (doc : Document) (emb : List ℝ) : QueryResult :=
  { id := idd
    title := doc.title
    date := doc.date
    source := doc.source
    jurisdiction := doc.jurisdiction
    score := 0.7 * vector_similarity qemb emb +
      0.3 * ((bm25_score qterms doc 1.5 0.75 none : ℚ) : ℝ)
    risk_score := doc.risk_score
    excerpt := if doc.content.length > 200
      then doc.content.take 200 ++ ("...") else doc.content }

/-- The body of the per-document loop of `query_hybrid_index`
(`vector_store.py` lines 164-201): skip on jurisdiction mismatch, skip when
the stored embedding is absent or falsy (the empty list), otherwise build
the scored result record. -/
noncomputable def candidate (qemb : List ℝ) (qterms : List String)
    (jur : Option String) (embs : String → Option (List ℝ))
    (p : String × Document) : Option QueryResult :=
  if jurisdictionRejects jur p.2 = true then none
  else
    match embs p.1 with
    | none => none
    | some [] => none
    | some (x :: xs) => some (mkResult qemb qterms p.1 p.2 (x :: xs))

/-- Model of `query_hybrid_index(query, jurisdiction, top_k)` from `vector_store.py`
lines 142-209 (the cache-miss computation; the surrounding result cache
stores and replays the very value computed here).  The Python
`if not doc: continue` re-check after the locked lookup can never fire in
the sequential model and has no counterpart. -/
noncomputable def query_hybrid_index (env : EmbedEnv) (store : DocStore)
    (query : String) (jurisdiction : Option String) (top_k : ℕ) :
    List QueryResult :=
  let query_embedding := generate_embedding env query
  let query_terms := pyTermSet query
  let results := store.docs.filterMap
    (candidate query_embedding query_terms jurisdiction store.embs)
  (sortDescBy (fun r => r.score) results).take top_k

/-! ### Fallback cache store (`redis_cache.py`, `MockRedisClient`) -/

/-- The in-process fallback cache of `redis_cache.py` lines 72-100: a value
dict and an expiry dict.  `time.time()` is modelled by an explicit rational
clock passed to each operation. -/
structure MockRedisClient where
  cache : String → Option String
  expiry : String → Option ℚ

/-- The state right after `MockRedisClient.__init__`: both dicts empty. -/
def emptyClient : MockRedisClient :=
  { cache := fun _ => none, expiry := fun _ => none }

/-- Model of `MockRedisClient.get(key)` (`redis_cache.py` lines 83-87): return the
stored value if the key is present and either has no expiry entry or its
expiry instant is still strictly in the future. -/
def mockGet (c : MockRedisClient) (now : ℚ) (key : String) : Option String :=
  match c.cache key with
  | none => none
  | some v =>
    match c.expiry key with
    | none => some v
    | some e => if e > now then some v else none

/-- Model of `MockRedisClient.set(key, value, ex)` (`redis_cache.py` lines 89-93):
always store the value; store `now + ex` as the expiry only when `ex` is
given — an existing expiry entry is left untouched otherwise. -/
def mockSet (c : MockRedisClient) (now : ℚ) (key value : String)
    (ex : Option ℚ) : MockRedisClient :=
  { cache := fun k => if k = key then some value else c.cache k
    expiry :=
      match ex with
      | none => c.expiry
      | some e => fun k => if k = key then some (now + e) else c.expiry k }

/-! ### Latest-documents listing (`get_latest_documents`) -/

/-- The `risk_level_map` dict of `vector_store.py` lines 216-221. -/
def risk_level_map (s : String) : Option ℚ :=
  if s = ("Low") then some 0.25
  else if s = ("Medium") then some 0.5
  else if s = ("High") then some 0.75
  else if s = ("Critical") then some 0.9
  else none

/-- Model of `risk_level_map.get(min_risk, 0.0) if min_risk else 0.0`
(`vector_store.py` line 223); an absent or empty label is falsy. -/
def min_risk_value (min_risk : Option String) : ℚ :=
  match min_risk with
  | none => 0
  | some s => if s = ("") then 0 else (risk_level_map s).getD 0

/-- Python substring containment `needle in hay`, equivalently
`hay.count(needle) > 0` (an empty needle is contained in everything). -/
def pyContains (hay needle : String) : Bool :=
  decide (0 < pyCount hay needle)

/-- The search filter of `get_latest_documents` (`vector_store.py` lines
247-255): keep the document when the lower-cased query is a substring of
the lower-cased title, content, or any keyword; an absent or empty query
string is falsy and filters nothing. -/
def searchRejects (search_query : Option String) (doc : Document) : Bool :=
  match search_query with
  | none => false
  | some sq =>
    if sq = ("") then false
    else
      let query_lower := pyLower sq
      !(pyContains (pyLower doc.title) query_lower ||
        pyContains (pyLower doc.content) query_lower ||
        doc.keywords.any (fun kw => pyContains (pyLower kw) query_lower))

/-- One entry of the result list built by `get_latest_documents`
(`vector_store.py` lines 258-268). -/
structure LatestResult where
  id : String
  title : String
  content : String
  date : String
  source : String
  jurisdiction : String
  risk_score : ℚ
  keywords : List String
  summary : String
deriving DecidableEq

/-- The result record for one document (`vector_store.py` lines 258-268). -/
def mkLatest (idd : String) (doc : Document) : LatestResult :=
  { id := idd
    title := doc.title
    content := doc.content
    date := doc.date
    source := doc.source
    jurisdiction := doc.jurisdiction
    risk_score := doc.risk_score
    keywords := doc.keywords
    summary := if doc.content.length > 150
      then doc.content.take 150 ++ ("...") else doc.content }

/-- Model of `documents[x["id"]]["timestamp"]` (`vector_store.py` line 271): a dict
lookup by id, total here with default 0 — every id in the result list comes
from the store, so the default is never the value used. -/
def lookupTimestamp (store : DocStore) (idd : String) : ℚ :=
  ((store.docs.find? (fun p => p.1 = idd)).map (fun p => p.2.timestamp)).getD 0

/-- Model of `get_latest_documents(jurisdiction, min_risk, search_query, limit)` from
`vector_store.py` lines 211-273: filter by jurisdiction, risk threshold and
substring search, then sort by ingestion timestamp (newest first, stable)
and truncate. -/
def get_latest_documents (store : DocStore) (jurisdiction : Option String)
    (min_risk : Option String) (search_query : Option String) (limit : ℕ) :
    List LatestResult :=
  let min_risk_val := min_risk_value min_risk
  let results := store.docs.filterMap
    (fun p =>
      if jurisdictionRejects jurisdiction p.2 = true then none
      else if p.2.risk_score < min_risk_val then none
      else if searchRejects search_query p.2 = true then none
      else some (mkLatest p.1 p.2))
  (sortDescBy (fun r => lookupTimestamp store r.id) results).take limit

/-! ### Lemmas about the stable descending sort -/

theorem insertDesc_perm {α κ : Type} [LinearOrder κ] (key : α → κ) (x : α)
    (l : List α) : List.Perm (insertDesc key x l) (x :: l) := by
  induction l with
  | nil => simp [insertDesc]
  | cons y ys ih =>
    simp only [insertDesc]
    split
    · exact (ih.cons y).trans (List.Perm.swap x y ys)
    · exact List.Perm.refl _

theorem sortDescBy_perm {α κ : Type} [LinearOrder κ] (key : α → κ)
    (l : List α) : List.Perm (sortDescBy key l) l := by
  induction l with
  | nil => simp [sortDescBy]
  | cons x xs ih =>
    exact (insertDesc_perm key x (sortDescBy key xs)).trans (ih.cons x)

theorem mem_insertDesc {α κ : Type} [LinearOrder κ] {key : α → κ} {x a : α}
    {l : List α} : a ∈ insertDesc key x l ↔ a = x ∨ a ∈ l := by
  rw [(insertDesc_perm key x l).mem_iff, List.mem_cons]

/-- Inserting `x` into a list that is sorted descending (with the
equal-key side condition `P` holding along the order) keeps the invariant,
provided `x` relates by `P` to every element it shares a key with —
which is how stability of the insertion shows up in proofs. -/
theorem insertDesc_pairwise {α κ : Type} [LinearOrder κ] {key : α → κ}
    {P : α → α → Prop} {x : α} {s : List α}
    (hs : s.Pairwise fun a b => key b ≤ key a ∧ (key a = key b → P a b))
    (hx : ∀ y ∈ s, key x = key y → P x y) :
    (insertDesc key x s).Pairwise
      fun a b => key b ≤ key a ∧ (key a = key b → P a b) := by
  induction s with
  | nil => simp [insertDesc]
  | cons y ys ih =>
    rw [List.pairwise_cons] at hs
    obtain ⟨hy, hys⟩ := hs
    simp only [insertDesc]
    split
    · rename_i hlt
      rw [List.pairwise_cons]
      constructor
      · intro z hz
        rcases mem_insertDesc.1 hz with hzx | hzys
        · subst hzx
          exact ⟨le_of_lt hlt, fun heq => absurd hlt (heq ▸ lt_irrefl _)⟩
        · exact hy z hzys
      · exact ih hys (fun z hz heq => hx z (List.mem_cons_of_mem _ hz) heq)
    · rename_i hnlt
      have hyx : key y ≤ key x := not_lt.1 hnlt
      rw [List.pairwise_cons]
      constructor
      · intro z hz
        rcases List.mem_cons.1 hz with hzy | hzys
        · subst hzy
          exact ⟨hyx, hx z (List.mem_cons_self _ _)⟩
        · exact ⟨le_trans (hy z hzys).1 hyx, hx z (List.mem_cons_of_mem _ hzys)⟩
      · exact List.pairwise_cons.2 ⟨hy, hys⟩

/-- The sort is descending in `key`, and any relation `P` that held
pairwise (in input order) between equal-key elements still holds pairwise
in output order: the sort is stable. -/
theorem sortDescBy_pairwise {α κ : Type} [LinearOrder κ] (key : α → κ)
    {P : α → α → Prop} {l : List α}
    (hl : l.Pairwise fun a b => key a = key b → P a b) :
    (sortDescBy key l).Pairwise
      fun a b => key b ≤ key a ∧ (key a = key b → P a b) := by
  induction l with
  | nil => simp [sortDescBy]
  | cons x xs ih =>
    rw [List.pairwise_cons] at hl
    obtain ⟨hx, hxs⟩ := hl
    exact insertDesc_pairwise (ih hxs)
      (fun y hy heq => hx y ((sortDescBy_perm key xs).subset hy) heq)

/-- A duplicate-free list is strictly ordered by its own `indexOf`. -/
theorem nodup_indexOf_pairwise {l : List String} (h : l.Nodup) :
    l.Pairwise (fun a b => l.indexOf a < l.indexOf b) := by
  induction l with
  | nil => exact List.Pairwise.nil
  | cons k ks ih =>
    rw [List.nodup_cons] at h
    obtain ⟨hk, hks⟩ := h
    refine List.Pairwise.cons ?_ ?_
    · intro b hb
      rw [List.indexOf_cons_self,
        List.indexOf_cons_ne _ (ne_of_mem_of_not_mem hb hk).symm]
      exact Nat.succ_pos _
    · refine (ih hks).imp_of_mem ?_
      intro a b ha hb hab
      rw [List.indexOf_cons_ne _ (ne_of_mem_of_not_mem ha hk).symm,
        List.indexOf_cons_ne _ (ne_of_mem_of_not_mem hb hk).symm]
      exact Nat.succ_lt_succ hab

/-! ### Inversion of the candidate construction -/

theorem candidate_eq_some {qemb : List ℝ} {qterms : List String}
    {jur : Option String} {embs : String → Option (List ℝ)}
    {p : String × Document} {r : QueryResult}
    (h : candidate qemb qterms jur embs p = some r) :
    jurisdictionRejects jur p.2 = false ∧
      ∃ emb, embs p.1 = some emb ∧ emb ≠ [] ∧
        r = mkResult qemb qterms p.1 p.2 emb := by
  by_cases hj : jurisdictionRejects jur p.2 = true
  · simp [candidate, hj] at h
  · rcases hemb : embs p.1 with _ | emb
    · simp [candidate, hj, hemb] at h
    · rcases emb with _ | ⟨e, es⟩
      · simp [candidate, hj, hemb] at h
      · simp [candidate, hj, hemb] at h
        exact ⟨Bool.not_eq_true _ ▸ hj, e :: es, rfl, List.cons_ne_nil e es, h.symm⟩

theorem candidate_id {qemb : List ℝ} {qterms : List String}
    {jur : Option String} {embs : String → Option (List ℝ)}
    {p : String × Document} {r : QueryResult}
    (h : candidate qemb qterms jur embs p = some r) : r.id = p.1 := by
  obtain ⟨-, emb, -, -, hr⟩ := candidate_eq_some h
  rw [hr]
  rfl

/-- Every result of `query_hybrid_index` comes from a stored document with
a present non-empty embedding, and is exactly the record built for it. -/
theorem mem_query_hybrid_index {env : EmbedEnv} {store : DocStore}
    {q : String} {jur : Option String} {k : ℕ} {r : QueryResult}
    (h : r ∈ query_hybrid_index env store q jur k) :
    ∃ doc emb, (r.id, doc) ∈ store.docs ∧ store.embs r.id = some emb ∧
      emb ≠ [] ∧ r = mkResult (generate_embedding env q) (pyTermSet q) r.id doc emb := by
  simp only [query_hybrid_index] at h
  have h1 := (List.take_sublist _ _).mem h
  have h2 := (sortDescBy_perm (fun r : QueryResult => r.score) _).mem_iff.1 h1
  obtain ⟨p, hp, hcand⟩ := List.mem_filterMap.1 h2
  obtain ⟨hjur, emb, hemb, hne, hr⟩ := candidate_eq_some hcand
  have hid : r.id = p.1 := by
    rw [hr]
    rfl
  refine ⟨p.2, emb, ?_, ?_, hne, ?_⟩
  · rw [hid]
    simpa using hp
  · rw [hid]
    exact hemb
  · rw [hid]
    exact hr

/-! ### Facts about magnitudes and the zero vector -/

theorem sumSq_nonneg (v : List ℝ) : 0 ≤ sumSq v := by
  induction v with
  | nil => simp [sumSq]
  | cons a as ih =>
    simp only [sumSq, List.map_cons, List.sum_cons]
    have := mul_self_nonneg a
    simp only [sumSq] at ih
    linarith

theorem magnitude_eq_zero {v : List ℝ} : magnitude v = 0 ↔ sumSq v = 0 := by
  rw [magnitude, Real.sqrt_eq_zero (sumSq_nonneg v)]

theorem sumSq_replicate_zero (n : ℕ) : sumSq (List.replicate n (0 : ℝ)) = 0 := by
  induction n with
  | zero => simp [sumSq]
  | succ m ih =>
    simp only [sumSq, List.replicate_succ, List.map_cons, List.sum_cons]
    simp only [sumSq] at ih
    simp [ih]

theorem vector_similarity_zero_left {v1 : List ℝ} (v2 : List ℝ)
    (h : sumSq v1 = 0) : vector_similarity v1 v2 = 0 := by
  simp only [vector_similarity]
  rw [if_pos (Or.inl (magnitude_eq_zero.2 h))]

/-! ### C4: zero-magnitude guard of `vector_similarity` -/

/-- C4: for every pair of vectors, `vector_similarity` returns 0 whenever
either vector has zero magnitude, and otherwise returns the dot product
divided by the product of the magnitudes, that product being nonzero — so
the division branch never divides by zero (and the function is total, hence
never raises). -/
theorem vector_similarity_zero_guard (v1 v2 : List ℝ) :
    ((magnitude v1 = 0 ∨ magnitude v2 = 0) → vector_similarity v1 v2 = 0) ∧
    (magnitude v1 ≠ 0 → magnitude v2 ≠ 0 →
      magnitude v1 * magnitude v2 ≠ 0 ∧
      vector_similarity v1 v2 = dotList v1 v2 / (magnitude v1 * magnitude v2)) := by
  constructor
  · intro h
    simp only [vector_similarity]
    rw [if_pos h]
  · intro h1 h2
    refine ⟨mul_ne_zero h1 h2, ?_⟩
    simp only [vector_similarity]
    rw [if_neg (by push_neg; exact ⟨h1, h2⟩)]

/-- Witness for C4 at the zero vector `[0, 0]` against `[1, 2]`. -/
theorem vector_similarity_zero_guard_witness :
    vector_similarity [(0 : ℝ), 0] [1, 2] = 0 :=
  (vector_similarity_zero_guard [(0 : ℝ), 0] [1, 2]).1
    (Or.inl (by rw [magnitude_eq_zero]; norm_num [sumSq]))

/-! ### C9: behaviour on vectors of unequal length -/

theorem zip_take_min (v1 : List ℝ) (v2 : List ℝ) :
    (v1.take (min v1.length v2.length)).zip
      (v2.take (min v1.length v2.length)) = v1.zip v2 := by
  induction v1 generalizing v2 with
  | nil => simp
  | cons a as ih =>
    cases v2 with
    | nil => simp
    | cons b bs =>
      simp only [List.length_cons, Nat.succ_min_succ, List.take_succ_cons,
        List.zip_cons_cons]
      rw [ih bs]

/-- C9: on vectors of unequal length `vector_similarity` is total (never
raises): the dot product is the dot product of the common prefixes (the
shorter length), while each magnitude ranges over that vector's full
length. -/
theorem vector_similarity_dim_mismatch (v1 v2 : List ℝ) :
    dotList v1 v2 =
      dotList (v1.take (min v1.length v2.length))
        (v2.take (min v1.length v2.length)) ∧
    (magnitude v1 ≠ 0 → magnitude v2 ≠ 0 →
      vector_similarity v1 v2 =
        dotList (v1.take (min v1.length v2.length))
          (v2.take (min v1.length v2.length)) /
          (magnitude v1 * magnitude v2)) := by
  have hdot : dotList v1 v2 =
      dotList (v1.take (min v1.length v2.length))
        (v2.take (min v1.length v2.length)) := by
    simp only [dotList]
    rw [zip_take_min]
  refine ⟨hdot, fun h1 h2 => ?_⟩
  rw [← hdot]
  simp only [vector_similarity]
  rw [if_neg (by push_neg; exact ⟨h1, h2⟩)]

/-- Witness for C9 at the concrete mismatched pair `[1]` and `[1, 1]`. -/
theorem vector_similarity_dim_mismatch_witness :
    vector_similarity [(1 : ℝ)] [1, 1] =
      dotList (List.take (min (List.length [(1 : ℝ)]) (List.length [(1 : ℝ), 1]))
          [(1 : ℝ)])
        (List.take (min (List.length [(1 : ℝ)]) (List.length [(1 : ℝ), 1]))
          [(1 : ℝ), 1]) /
        (magnitude [(1 : ℝ)] * magnitude [(1 : ℝ), 1]) :=
  (vector_similarity_dim_mismatch [(1 : ℝ)] [(1 : ℝ), 1]).2
    (by rw [Ne, magnitude_eq_zero]; norm_num [sumSq])
    (by rw [Ne, magnitude_eq_zero]; norm_num [sumSq])

/-! ### C3: the BM25 formula -/

theorem foldl_mem_add_eq_sum (dt : List String) (f : String → ℚ) :
    ∀ (l : List String) (a : ℚ),
      List.foldl (fun score term => if term ∈ dt then score + f term else score)
          a l =
        a + (List.map f (List.filter (fun t => t ∈ dt) l)).sum := by
  intro l
  induction l with
  | nil =>
    intro a
    simp
  | cons t ts ih =>
    intro a
    by_cases h : t ∈ dt
    · simp only [List.foldl_cons, if_pos h, List.filter_cons, h, decide_True,
        ite_true, List.map_cons, List.sum_cons, ih]
      ring
    · simp [List.foldl_cons, if_neg h, List.filter_cons, h, ih]

/-- C3: with no external average document length, `bm25_score` is the sum,
over exactly the query terms present in the document's term set, of
`tf * (k1 + 1) / (tf + k1 * (1 - b + b * doclen / avgdoclen))` with
`k1 = 1.5`, `b = 0.75` and `avgdoclen` defaulting to the document's own
term count (`doclen`), for query terms obtained by lower-casing,
whitespace-splitting and collapsing duplicates. -/
theorem bm25_score_formula (q : String) (doc : Document) :
    bm25_score (pyTermSet q) doc 1.5 0.75 none =
      (List.map
        (fun term =>
          (pyCount (pyLower doc.content) term : ℚ) * (1.5 + 1) /
            ((pyCount (pyLower doc.content) term : ℚ) +
              1.5 * (1 - 0.75 + 0.75 *
                (((docTerms doc).length : ℚ) / ((docTerms doc).length : ℚ)))))
        (List.filter (fun t => t ∈ docTerms doc) (pyTermSet q))).sum := by
  by_cases hq : pyTermSet q = []
  · simp [bm25_score, hq]
  · simp only [bm25_score, if_neg hq, Option.getD_none]
    rw [foldl_mem_add_eq_sum, zero_add]

/-! ### C2: the combined score weighting -/

/-- C2: for every query, every result returned by `query_hybrid_index`
scores its document exactly `0.7 * cosine similarity + 0.3 * BM25 lexical
score` (BM25 at its default `k1 = 1.5`, `b = 0.75` and per-document average
length). -/
theorem query_hybrid_index_score_formula (env : EmbedEnv) (store : DocStore)
    (q : String) (jur : Option String) (k : ℕ) (r : QueryResult)
    (hr : r ∈ query_hybrid_index env store q jur k) :
    ∃ doc emb, (r.id, doc) ∈ store.docs ∧ store.embs r.id = some emb ∧
      r.score = 0.7 * vector_similarity (generate_embedding env q) emb +
        0.3 * ((bm25_score (pyTermSet q) doc 1.5 0.75 none : ℚ) : ℝ) := by
  obtain ⟨doc, emb, h1, h2, h3, h4⟩ := mem_query_hybrid_index hr
  refine ⟨doc, emb, h1, h2, ?_⟩
  rw [h4]
  rfl

/-! Concrete data reused by several witnesses below. -/

/-- A concrete stored document. -/
def docA : Document :=
  { title := ("Doc A")
    content := ("alpha")
    date := ("2024-01-01")
    source := ("src")
    jurisdiction := ("US")
    risk_score := 0.8
    keywords := [("alpha")]
    timestamp := 1 }

/-- A provider that always answers with the embedding `[1]`. -/
def envSome : EmbedEnv := { embed := fun _ => some [(1 : ℝ)] }

/-- A provider whose embedding call always fails. -/
def envFail : EmbedEnv := { embed := fun _ => none }

/-- A store holding the single document `docA` under id `A`. -/
def storeA : DocStore :=
  { docs := [(("A"), docA)]
    embs := fun i => if i = ("A") then some [(1 : ℝ)] else none }

/-- The result record that querying `storeA` for `zzz` produces. -/
noncomputable def resA : QueryResult :=
  mkResult (generate_embedding envSome ("zzz")) (pyTermSet ("zzz")) ("A")
    docA [(1 : ℝ)]

/-- Witness for C2: the query `zzz` against `storeA`. -/
theorem query_hybrid_index_score_formula_witness :
    ∃ doc emb, (resA.id, doc) ∈ storeA.docs ∧ storeA.embs resA.id = some emb ∧
      resA.score = 0.7 * vector_similarity (generate_embedding envSome ("zzz")) emb +
        0.3 * ((bm25_score (pyTermSet ("zzz")) doc 1.5 0.75 none : ℚ) : ℝ) :=
  query_hybrid_index_score_formula envSome storeA ("zzz") none 5 resA
    (by rw [show query_hybrid_index envSome storeA ("zzz") none 5 = [resA] from rfl]
        exact List.mem_singleton.mpr rfl)

/-! ### C5: embedding failure falls back to the zero vector -/

/-- C5: when the embedding provider fails on the query text, the query
still completes: `generate_embedding` substitutes the all-zero vector of
dimension 1536, the vector term contributes exactly 0 to every returned
result, and each returned score is the lexical component alone
(`0.3 * bm25`). -/
theorem query_hybrid_index_embed_failure (env : EmbedEnv) (store : DocStore)
    (q : String) (jur : Option String) (k : ℕ) (r : QueryResult)
    (hfail : env.embed q = none)
    (hr : r ∈ query_hybrid_index env store q jur k) :
    generate_embedding env q = List.replicate 1536 (0 : ℝ) ∧
    ∃ doc, (r.id, doc) ∈ store.docs ∧
      r.score = 0.3 * ((bm25_score (pyTermSet q) doc 1.5 0.75 none : ℚ) : ℝ) := by
  have hgen : generate_embedding env q = List.replicate 1536 (0 : ℝ) := by
    unfold generate_embedding
    rw [hfail, Option.getD_none]
  obtain ⟨doc, emb, h1, h2, h3, h4⟩ := mem_query_hybrid_index hr
  refine ⟨hgen, doc, h1, ?_⟩
  rw [h4]
  show 0.7 * vector_similarity (generate_embedding env q) emb +
      0.3 * ((bm25_score (pyTermSet q) doc 1.5 0.75 none : ℚ) : ℝ) =
    0.3 * ((bm25_score (pyTermSet q) doc 1.5 0.75 none : ℚ) : ℝ)
  rw [hgen, vector_similarity_zero_left emb (sumSq_replicate_zero 1536)]
  ring

/-- The result record that the failing-provider query for `zzz` produces. -/
noncomputable def resF : QueryResult :=
  mkResult (generate_embedding envFail ("zzz")) (pyTermSet ("zzz")) ("A")
    docA [(1 : ℝ)]

/-- Witness for C5: the failing provider against `storeA`. -/
theorem query_hybrid_index_embed_failure_witness :
    generate_embedding envFail ("zzz") = List.replicate 1536 (0 : ℝ) ∧
    ∃ doc, (resF.id, doc) ∈ storeA.docs ∧
      resF.score = 0.3 * ((bm25_score (pyTermSet ("zzz")) doc 1.5 0.75 none : ℚ) : ℝ) :=
  query_hybrid_index_embed_failure envFail storeA ("zzz") none 5 resF rfl
    (by rw [show query_hybrid_index envFail storeA ("zzz") none 5 = [resF] from rfl]
        exact List.mem_singleton.mpr rfl)

/-! ### C1: ordering of equal-score results -/

/-- C1 (amended): `query_hybrid_index` sorts by combined score descending,
and two results with equal score appear in the order in which their
documents are enumerated from the store (Python dict insertion order) —
the sort is stable, with no document-id tie-break. -/
theorem query_hybrid_index_rank_order (env : EmbedEnv) (store : DocStore)
    (q : String) (jur : Option String) (k : ℕ)
    (hnd : (store.docs.map Prod.fst).Nodup) :
    (query_hybrid_index env store q jur k).Pairwise (fun a b =>
      b.score ≤ a.score ∧
        (a.score = b.score →
          (store.docs.map Prod.fst).indexOf a.id <
            (store.docs.map Prod.fst).indexOf b.id)) := by
  have hkeys := nodup_indexOf_pairwise hnd
  have hdocs : store.docs.Pairwise (fun p p' =>
      (store.docs.map Prod.fst).indexOf p.1 <
        (store.docs.map Prod.fst).indexOf p'.1) :=
    List.Pairwise.of_map Prod.fst (fun _ _ h => h) hkeys
  have hcands : (store.docs.filterMap
        (candidate (generate_embedding env q) (pyTermSet q) jur store.embs)).Pairwise
      (fun a b => (store.docs.map Prod.fst).indexOf a.id <
        (store.docs.map Prod.fst).indexOf b.id) := by
    rw [List.pairwise_filterMap]
    refine hdocs.imp ?_
    intro p p' hlt b hb b' hb'
    rw [candidate_id (Option.mem_def.mp hb), candidate_id (Option.mem_def.mp hb')]
    exact hlt
  have hstable := sortDescBy_pairwise (fun r : QueryResult => r.score)
    (hcands.imp (fun h => fun _ => h))
  simp only [query_hybrid_index]
  exact hstable.sublist (List.take_sublist _ _)

/-- A store with two identical documents, inserted as `B` then `A`. -/
def storeBA : DocStore :=
  { docs := [(("B"), docA), (("A"), docA)]
    embs := fun _ => some [(1 : ℝ)] }

/-- The result record for id `B` in the tied query below. -/
noncomputable def resB1 : QueryResult :=
  mkResult (generate_embedding envFail ("zzz")) (pyTermSet ("zzz")) ("B")
    docA [(1 : ℝ)]

/-- The result record for id `A` in the tied query below. -/
noncomputable def resA1 : QueryResult :=
  mkResult (generate_embedding envFail ("zzz")) (pyTermSet ("zzz")) ("A")
    docA [(1 : ℝ)]

/-- Counterexample for C1 as stated: querying `storeBA` for `zzz` returns
two results with equal combined score, and the one with the
lexicographically larger id (`B`) comes first — ties follow insertion
order, not id order. -/
theorem query_hybrid_index_tie_not_by_id :
    (query_hybrid_index envFail storeBA ("zzz") none 5).map (fun r => r.id) =
      [("B"), ("A")] ∧
    (query_hybrid_index envFail storeBA ("zzz") none 5).map (fun r => r.score) =
      [resA1.score, resA1.score] ∧
    (("A") : String) < ("B") := by
  have hneg : ¬ (resB1.score < resA1.score) := by
    rw [show resB1.score = resA1.score from rfl]
    exact lt_irrefl _
  have h : query_hybrid_index envFail storeBA ("zzz") none 5 = [resB1, resA1] := by
    rw [show query_hybrid_index envFail storeBA ("zzz") none 5 =
      (insertDesc (fun r : QueryResult => r.score) resB1 [resA1]).take 5 from rfl]
    simp only [insertDesc]
    rw [if_neg hneg]
    rfl
  refine ⟨?_, ?_, ?_⟩
  · rw [h]
    rfl
  · rw [h]
    rfl
  · rw [String.lt_iff_toList_lt]
    decide

/-- Witness for C1 (amended) at the tied two-document store. -/
theorem query_hybrid_index_rank_order_witness :
    (query_hybrid_index envFail storeBA ("zzz") none 5).Pairwise (fun a b =>
      b.score ≤ a.score ∧
        (a.score = b.score →
          (storeBA.docs.map Prod.fst).indexOf a.id <
            (storeBA.docs.map Prod.fst).indexOf b.id)) :=
  query_hybrid_index_rank_order envFail storeBA ("zzz") none 5 (by decide)

/-! ### C7: malformed query input -/

/-- C7 (amended): a jurisdiction filter value that is non-empty and matches
no stored document (in particular any unknown jurisdiction code) makes
`query_hybrid_index` return the empty result sequence, for every query;
an empty query text, however, is not rejected: the query completes without
error, its lexical score is 0 for every document, and each returned result
still carries the usual combined score (so the result sequence need not be
empty). -/
theorem query_hybrid_index_malformed (env : EmbedEnv) (store : DocStore)
    (j : String) (top_k : ℕ) (hne : j ≠ (""))
    (hunk : ∀ p ∈ store.docs, p.2.jurisdiction ≠ j) :
    (∀ q, query_hybrid_index env store q (some j) top_k = []) ∧
    (∀ r ∈ query_hybrid_index env store ("") none top_k,
      ∃ doc emb, (r.id, doc) ∈ store.docs ∧ store.embs r.id = some emb ∧
        r.score = 0.7 * vector_similarity (generate_embedding env ("")) emb +
          0.3 * ((bm25_score (pyTermSet ("")) doc 1.5 0.75 none : ℚ) : ℝ) ∧
        bm25_score (pyTermSet ("")) doc 1.5 0.75 none = 0) := by
  constructor
  · intro q
    simp only [query_hybrid_index]
    have hfm : store.docs.filterMap
        (candidate (generate_embedding env q) (pyTermSet q) (some j) store.embs) =
        [] := by
      rw [List.filterMap_eq_nil_iff]
      intro p hp
      have hrej : jurisdictionRejects (some j) p.2 = true := by
        simp only [jurisdictionRejects, Bool.and_eq_true, Bool.not_eq_true',
          beq_eq_false_iff_ne]
        exact ⟨hne, hunk p hp⟩
      simp [candidate, hrej]
    rw [hfm]
    rw [show sortDescBy (fun r : QueryResult => r.score) ([] : List QueryResult) =
      [] from rfl, List.take_nil]
  · intro r hr
    obtain ⟨doc, emb, h1, h2, h3, h4⟩ := mem_query_hybrid_index hr
    refine ⟨doc, emb, h1, h2, ?_, ?_⟩
    · rw [h4]
      rfl
    · rfl

/-- Counterexample for C7 as stated: the empty query against the nonempty
`storeA` returns one result, not the empty sequence. -/
theorem query_hybrid_index_empty_query_not_empty :
    query_hybrid_index envFail storeA ("") none 5 ≠ [] ∧
    (query_hybrid_index envFail storeA ("") none 5).length = 1 := by
  have h : query_hybrid_index envFail storeA ("") none 5 =
      [mkResult (generate_embedding envFail ("")) (pyTermSet ("")) ("A")
        docA [(1 : ℝ)]] := rfl
  constructor
  · rw [h]
    simp
  · rw [h]
    rfl

/-- Witness for C7 (amended): the unknown jurisdiction code `XX` against
`storeA`. -/
theorem query_hybrid_index_malformed_witness :
    (∀ q, query_hybrid_index envFail storeA q (some ("XX")) 5 = []) ∧
    (∀ r ∈ query_hybrid_index envFail storeA ("") none 5,
      ∃ doc emb, (r.id, doc) ∈ storeA.docs ∧ storeA.embs r.id = some emb ∧
        r.score = 0.7 * vector_similarity (generate_embedding envFail ("")) emb +
          0.3 * ((bm25_score (pyTermSet ("")) doc 1.5 0.75 none : ℚ) : ℝ) ∧
        bm25_score (pyTermSet ("")) doc 1.5 0.75 none = 0) :=
  query_hybrid_index_malformed envFail storeA ("XX") 5 (by decide) (by decide)

/-! ### C8: the minimum-risk filter of `get_latest_documents` -/

theorem mem_get_latest {store : DocStore} {jur mr sq : Option String}
    {limit : ℕ} {r : LatestResult}
    (h : r ∈ get_latest_documents store jur mr sq limit) :
    ∃ p, p ∈ store.docs ∧ ¬(p.2.risk_score < min_risk_value mr) ∧
      r = mkLatest p.1 p.2 := by
  simp only [get_latest_documents] at h
  have h1 := (List.take_sublist _ _).mem h
  have h2 := (sortDescBy_perm (fun r : LatestResult => lookupTimestamp store r.id)
    _).mem_iff.1 h1
  obtain ⟨p, hp, hf⟩ := List.mem_filterMap.1 h2
  by_cases hj : jurisdictionRejects jur p.2 = true
  · simp [hj] at hf
  · by_cases hrisk : p.2.risk_score < min_risk_value mr
    · simp [hj, hrisk] at hf
    · by_cases hs : searchRejects sq p.2 = true
      · simp [hj, hrisk, hs] at hf
      · simp [hj, hrisk, hs] at hf
        exact ⟨p, hp, hrisk, hf.symm⟩

/-- C8: `get_latest_documents` never returns a document whose risk score is
below the threshold mapped from the `min_risk` label, the map being
`Low ↦ 0.25`, `Medium ↦ 0.5`, `High ↦ 0.75`, `Critical ↦ 0.9`; in
particular with the label `High` every returned `risk_score` is at least
`0.75`. -/
theorem get_latest_documents_min_risk (store : DocStore)
    (jur : Option String) (lbl : String) (search : Option String)
    (limit : ℕ) (r : LatestResult)
    (hr : r ∈ get_latest_documents store jur (some lbl) search limit) :
    min_risk_value (some lbl) ≤ r.risk_score ∧
    (lbl = ("High") → (0.75 : ℚ) ≤ r.risk_score) ∧
    risk_level_map ("Low") = some 0.25 ∧
    risk_level_map ("Medium") = some 0.5 ∧
    risk_level_map ("High") = some 0.75 ∧
    risk_level_map ("Critical") = some 0.9 := by
  obtain ⟨p, hp, hrisk, hr'⟩ := mem_get_latest hr
  have hscore : r.risk_score = p.2.risk_score := by
    rw [hr']
    rfl
  have hle : min_risk_value (some lbl) ≤ r.risk_score := by
    rw [hscore]
    exact not_lt.1 hrisk
  refine ⟨hle, ?_, rfl, rfl, rfl, rfl⟩
  intro hlbl
  subst hlbl
  rw [show (0.75 : ℚ) = min_risk_value (some ("High")) from rfl]
  exact hle

/-- Witness for C8: the `High` filter against `storeA` (whose single
document has risk score `0.8`). -/
theorem get_latest_documents_min_risk_witness :
    min_risk_value (some ("High")) ≤ (mkLatest ("A") docA).risk_score ∧
    (("High" : String) = ("High") →
      (0.75 : ℚ) ≤ (mkLatest ("A") docA).risk_score) ∧
    risk_level_map ("Low") = some 0.25 ∧
    risk_level_map ("Medium") = some 0.5 ∧
    risk_level_map ("High") = some 0.75 ∧
    risk_level_map ("Critical") = some 0.9 :=
  get_latest_documents_min_risk storeA none ("High") none 10 (mkLatest ("A") docA)
    (by
      have hrisk : ¬ (docA.risk_score < min_risk_value (some ("High"))) := by
        show ¬ ((0.8 : ℚ) < min_risk_value (some ("High")))
        rw [show min_risk_value (some ("High")) = (0.75 : ℚ) from rfl]
        norm_num
      have hf : (if jurisdictionRejects none docA = true then (none : Option LatestResult)
          else if docA.risk_score < min_risk_value (some ("High")) then none
          else if searchRejects none docA = true then none
          else some (mkLatest ("A") docA)) = some (mkLatest ("A") docA) := by
        show (if (false : Bool) = true then (none : Option LatestResult)
          else if docA.risk_score < min_risk_value (some ("High")) then none
          else if (false : Bool) = true then none
          else some (mkLatest ("A") docA)) = some (mkLatest ("A") docA)
        simp only [Bool.false_eq_true, if_false]
        rw [if_neg hrisk]
      have hstep : get_latest_documents storeA none (some ("High")) none 10 =
          [mkLatest ("A") docA] := by
        simp only [get_latest_documents]
        rw [show storeA.docs = [(("A"), docA)] from rfl]
        simp only [List.filterMap_cons, List.filterMap_nil]
        rw [hf]
        rfl
      rw [hstep]
      exact List.mem_singleton.mpr rfl)

/-! ### C6: TTL round trip of the fallback cache store -/

/-- C6: for every state of the fallback store, key, value and (positive)
ttl, `set(key, v, ttl)` followed by `get(key)` at the same instant returns
`v`; a `get(key)` performed more than `ttl` seconds after the set returns
absent; and in full generality a read at or after a key's expiry instant
returns absent — an expired entry is never served as a stale value. -/
theorem mock_cache_ttl_roundtrip (c : MockRedisClient) (t : ℚ)
    (key value : String) (ttl : ℚ) (hpos : 0 < ttl) :
    mockGet (mockSet c t key value (some ttl)) t key = some value ∧
    (∀ t', t + ttl < t' →
      mockGet (mockSet c t key value (some ttl)) t' key = none) ∧
    (∀ (c' : MockRedisClient) (now : ℚ) (k : String) (e : ℚ),
      c'.expiry k = some e → e ≤ now → mockGet c' now k = none) := by
  refine ⟨?_, ?_, ?_⟩
  · have hx : t + ttl > t := by linarith
    simp [mockGet, mockSet, hx]
  · intro t' ht'
    have hx : ¬ (t + ttl > t') := by linarith
    simp [mockGet, mockSet, hx]
  · intro c' now k e he hle
    have hx : ¬ (e > now) := by linarith
    rcases hc : c'.cache k with _ | v
    · simp [mockGet, he, hc, hx]
    · simp [mockGet, he, hc, hx]

/-- Witness for C6: an empty store, `set` at time 0 with ttl 1, reads at
times 0 and 2. -/
theorem mock_cache_ttl_roundtrip_witness :
    mockGet (mockSet emptyClient 0 ("k") ("v") (some 1)) 0 ("k") = some ("v") ∧
    mockGet (mockSet emptyClient 0 ("k") ("v") (some 1)) 2 ("k") = none :=
  ⟨(mock_cache_ttl_roundtrip emptyClient 0 ("k") ("v") 1 (by norm_num)).1,
    (mock_cache_ttl_roundtrip emptyClient 0 ("k") ("v") 1 (by norm_num)).2.1 2
      (by norm_num)⟩

/-! ### C10: `set` without expiry keeps the old expiry -/

/-- C10: overwriting a key with `set(key, v2)` (no expiry argument) leaves
the previously stored expiry instant in place, so once that instant has
passed a `get(key)` returns absent even though the most recent write
carried no TTL. -/
theorem mock_set_none_keeps_expiry (c : MockRedisClient) (t0 t1 now ex : ℚ)
    (k v1 v2 : String) (h : t0 + ex < now) :
    (mockSet (mockSet c t0 k v1 (some ex)) t1 k v2 none).expiry k =
      some (t0 + ex) ∧
    mockGet (mockSet (mockSet c t0 k v1 (some ex)) t1 k v2 none) now k =
      none := by
  constructor
  · simp [mockSet]
  · have hx : ¬ (t0 + ex > now) := by linarith
    simp [mockGet, mockSet, hx]

/-- Witness for C10: expiry set at time 0 with ttl 1, overwritten without
expiry, read at time 2. -/
theorem mock_set_none_keeps_expiry_witness :
    (mockSet (mockSet emptyClient 0 ("k") ("v1") (some 1)) 0 ("k") ("v2")
        none).expiry ("k") = some (0 + 1) ∧
    mockGet (mockSet (mockSet emptyClient 0 ("k") ("v1") (some 1)) 0 ("k")
        ("v2") none) 2 ("k") = none :=
  mock_set_none_keeps_expiry emptyClient 0 0 2 1 ("k") ("v1") ("v2") (by norm_num)
